import Mathlib

/-!
Verification development for `gemini_unit_tests_gen.py`: a shallow embedding of
the command parsers (`parse_add_file_command`, `parse_commit_command`), the
coverage retrieval branch (`get_coverage`), the module-name derivation in
`add_test_file`, and the per-file session controller loop
(`chat_request_test_generation`), together with theorems about the frozen
claims C1..C10.

Conventions: Python strings are Lean `String`s (reasoned about via their
`List Char` data); process exit codes are `Int`; external effects (file
writes, process invocations, git calls) are reified as an explicit `Effect`
trace; the agent and the external world are an `Env` of oracles indexed by
the attempt number.
-/

/-- Python's regex `\s` class for `str` patterns: ASCII whitespace plus the
Unicode whitespace characters. -/
def isPySpace (c : Char) : Bool :=
  (9 ≤ c.toNat && c.toNat ≤ 13) || c.toNat == 32 || (28 ≤ c.toNat && c.toNat ≤ 31) ||
  c.toNat == 133 || c.toNat == 160 || c.toNat == 0x1680 ||
  (0x2000 ≤ c.toNat && c.toNat ≤ 0x200A) || c.toNat == 0x2028 || c.toNat == 0x2029 ||
  c.toNat == 0x202F || c.toNat == 0x205F || c.toNat == 0x3000

/-- Python's substring containment test `pat in s`, on character lists. -/
def containsSub (pat : List Char) : List Char → Bool
  | [] => pat.isPrefixOf ([] : List Char)
  | c :: rest => pat.isPrefixOf (c :: rest) || containsSub pat rest

/-- `SINGLE_FILE_GENERATION_ATTEMPTS_LIMIT = 5` (line 32 of the source). -/
def SINGLE_FILE_GENERATION_ATTEMPTS_LIMIT : Nat := 5

/-- The eligibility marker checked by the controller:
`'test_gemini_' not in test_file_path`. -/
def testGeminiMarker : List Char := "test_gemini_".data

/-- The marker literally present in the commit parse pattern:
`[^\n]+_gemini_[^\n\s]+`. -/
def geminiMarker : List Char := "_gemini_".data

/-! ## Module-name derivation (`add_test_file`, line 255)

`module_to_test = test_file_path.replace('/', '.').replace('.py', '')`.
`str.replace` with a one-character pattern is a character map; with pattern
`'.py'` and empty replacement it deletes every (left-to-right,
non-overlapping) occurrence of `.py`. -/

/-- `test_file_path.replace('/', '.')`: every `/` becomes `.`. -/
def replaceSlashes : List Char → List Char
  | [] => []
  | c :: rest => (if c == '/' then '.' else c) :: replaceSlashes rest

/-- `.replace('.py', '')`: delete every occurrence of `.py`, scanning left to
right, non-overlapping (Python `str.replace` semantics). -/
def removeDotPy : List Char → List Char
  | '.' :: 'p' :: 'y' :: rest => removeDotPy rest
  | c :: rest => c :: removeDotPy rest
  | [] => []

/-- The module identifier handed to `python3 -m unittest` (source line 255). -/
def module_to_test (p : String) : String := ⟨removeDotPy (replaceSlashes p.data)⟩

/-! ## Coverage retrieval (`get_coverage`, lines 213-226)

The function runs the whole test suite, then `coverage annotate --include
{path}`; a nonzero exit status of the annotate step returns the sentinel
string `'WHOLE_FILE_NOT_COVERED'`, otherwise the contents of the `path +
',cover'` artifact are read and returned. The two return sites are
distinguished as a sum type; `get_coverage_str` is the raw string the Python
function returns. -/

/-- The two possible outcomes of `get_coverage`: the sentinel, or the
annotated file contents read from disk. -/
inductive CoverageResult where
  | whole_file_not_covered : CoverageResult
  | annotated (contents : String) : CoverageResult
deriving DecidableEq

/-- `get_coverage`, as a function of the annotate step's exit status and the
contents of the `,cover` artifact (the external world). -/
def get_coverage (annotateStatus : Int) (coverFileContents : String) : CoverageResult :=
  if annotateStatus ≠ 0 then .whole_file_not_covered else .annotated coverFileContents

/-- The string actually returned by the Python `get_coverage`. -/
def get_coverage_str (annotateStatus : Int) (coverFileContents : String) : String :=
  if annotateStatus ≠ 0 then "WHOLE_FILE_NOT_COVERED" else coverFileContents

/-- Rendering a `CoverageResult` back to the string the Python code returns. -/
def coverageResultStr : CoverageResult → String
  | .whole_file_not_covered => "WHOLE_FILE_NOT_COVERED"
  | .annotated c => c

/-! ## Command parsers (lines 308-337)

`parse_add_file_command` uses
`re.match(r'.*WRITE_TEST_FILE:\s+([^\n\s]+)\n(.+?)\nEND_TEST_FILE.*', s, re.DOTALL)`
and `parse_commit_command` uses
`re.match(r'.*COMMIT:\s+([^\n]+_gemini_[^\n\s]+)\n(.+?)\nEND_COMMIT_MESSAGE.*', s, re.DOTALL)`.

With `re.DOTALL` the leading greedy `.*` makes the engine try the latest
keyword occurrence first; `\s+` greedily eats a maximal whitespace run;
`[^\n\s]+` is a maximal nonempty run of non-whitespace characters which must
be followed by a literal newline; the lazy `(.+?)` captures the shortest
nonempty text ending at the first following sentinel; the trailing `.*` is
unconstrained. The commit path group `[^\n]+_gemini_[^\n\s]+` always spans
exactly the rest of the current line (the whitespace-free tail condition and
the following `\n` force this), and the `\s+` can backtrack one step at a
time when the line would otherwise start with `_gemini_`. The functions
below implement exactly this backtracking order. -/

/-- The sentinel `\nEND_TEST_FILE` of the WRITE_TEST_FILE pattern. -/
def nlEndTestFile : List Char := "\nEND_TEST_FILE".data

/-- The sentinel `\nEND_COMMIT_MESSAGE` of the COMMIT pattern. -/
def nlEndCommitMessage : List Char := "\nEND_COMMIT_MESSAGE".data

/-- Lazy body capture `(.+?)` followed by a sentinel: returns the shortest
nonempty body such that the sentinel immediately follows, together with the
text after the sentinel. -/
def findBody (sen : List Char) : List Char → Option (List Char × List Char)
  | [] => none
  | x :: xs =>
    if sen.isPrefixOf xs then some ([x], xs.drop sen.length)
    else
      match findBody sen xs with
      | some cr => some (x :: cr.1, cr.2)
      | none => none

/-- Strip a literal keyword at the head of the input. -/
def dropLit (lit l : List Char) : Option (List Char) :=
  if lit.isPrefixOf l then some (l.drop lit.length) else none

/-- Match `WRITE_TEST_FILE:\s+([^\n\s]+)\n(.+?)\nEND_TEST_FILE.*` at the head
of `l`, returning the two capture groups (path, content). -/
def matchWriteAt (l : List Char) : Option (List Char × List Char) :=
  match dropLit "WRITE_TEST_FILE:".data l with
  | none => none
  | some r =>
    let ws := r.takeWhile isPySpace
    if ws.isEmpty then none
    else
      let r2 := r.dropWhile isPySpace
      let tok := r2.takeWhile (fun c => !isPySpace c)
      if tok.isEmpty then none
      else
        match r2.dropWhile (fun c => !isPySpace c) with
        | '\n' :: body =>
          match findBody nlEndTestFile body with
          | some cr => some (tok, cr.1)
          | none => none
        | _ => none

/-- The leading greedy `.*` of `re.match`: try every start position for the
keyword, preferring the latest one that yields a full match. -/
def scanWrite : List Char → Option (List Char × List Char)
  | [] => none
  | c :: rest =>
    match scanWrite rest with
    | some r => some r
    | none => matchWriteAt (c :: rest)

/-- `parse_add_file_command` (source lines 308-322). -/
def parse_add_file_command (s : String) : Option (String × String) :=
  match scanWrite s.data with
  | some pc => some (⟨pc.1⟩, ⟨pc.2⟩)
  | none => none

/-- Scan for an occurrence of `_gemini_` in the line tail such that the rest
of the line after it is nonempty and whitespace-free (the `[^\n\s]+` part
followed by `\n`). -/
def gemSuffixScan : List Char → Bool
  | [] => false
  | c :: tl =>
    (geminiMarker.isPrefixOf (c :: tl) &&
      (let b := (c :: tl).drop geminiMarker.length
       !b.isEmpty && b.all (fun x => !isPySpace x))) ||
    gemSuffixScan tl

/-- The path group `[^\n]+_gemini_[^\n\s]+` matches a whole line `L` exactly
when `L = A ++ "_gemini_" ++ B` with `A` nonempty and `B` a nonempty
whitespace-free tail reaching the end of the line. -/
def hasMarkerSplit : List Char → Bool
  | [] => false
  | _ :: tl => gemSuffixScan tl

/-- One attempt of the commit pattern after the `\s+` consumed `k`
characters: the path group must cover the whole current line, a newline must
follow, and the lazy message capture must reach `\nEND_COMMIT_MESSAGE`. -/
def commitAttemptAt (r : List Char) (k : Nat) : Option (List Char × List Char) :=
  if hasMarkerSplit ((r.drop k).takeWhile (fun c => c != '\n')) then
    match (r.drop k).dropWhile (fun c => c != '\n') with
    | '\n' :: body =>
      match findBody nlEndCommitMessage body with
      | some cr => some ((r.drop k).takeWhile (fun c => c != '\n'), cr.1)
      | none => none
    | _ => none
  else none

/-- Greedy `\s+` backtracking: try consuming `k, k-1, ..., 1` whitespace
characters, in that order. -/
def scanKBack (r : List Char) : Nat → Option (List Char × List Char)
  | 0 => none
  | k + 1 =>
    match commitAttemptAt r (k + 1) with
    | some res => some res
    | none => scanKBack r k

/-- Match `COMMIT:\s+([^\n]+_gemini_[^\n\s]+)\n(.+?)\nEND_COMMIT_MESSAGE.*`
at the head of `l`. -/
def matchCommitAt (l : List Char) : Option (List Char × List Char) :=
  match dropLit "COMMIT:".data l with
  | none => none
  | some r => scanKBack r (r.takeWhile isPySpace).length

/-- The leading greedy `.*` for the commit pattern. -/
def scanCommit : List Char → Option (List Char × List Char)
  | [] => none
  | c :: rest =>
    match scanCommit rest with
    | some r => some r
    | none => matchCommitAt (c :: rest)

/-- `parse_commit_command` (source lines 324-337). -/
def parse_commit_command (s : String) : Option (String × String) :=
  match scanCommit s.data with
  | some pm => some (⟨pm.1⟩, ⟨pm.2⟩)
  | none => none

/-! ## Session controller (`chat_request_test_generation`, lines 339-393)

The loop `for attempt in range(0, SINGLE_FILE_GENERATION_ATTEMPTS_LIMIT)`
sends the pending user message, parses the reply with both parsers, and
dispatches: both matched gives the ambiguity corrective message; a
WRITE_TEST_FILE match is gated on `'test_gemini_' in path` (on failure the
corrective message is set and the iteration `continue`s), otherwise
`add_test_file` writes the file, runs the module, re-measures coverage, and
the status message is built with the escalation prompts at
`attempt == LIMIT - 3` and `attempt == LIMIT - 2`; a COMMIT match runs
`git add` and `git commit` (each exit status is `assert`ed to be zero, a
fatal crash otherwise) and returns; anything else sets the unrecognized
corrective message. Falling off the loop returns `None`.

External actions are reified as an `Effect` trace, outbound messages as
`OutMsg` (with `renderMsg` giving the exact strings of the source), and the
agent plus external processes as attempt-indexed oracles in `Env`. -/

/-- Side effects the controller can perform in one iteration. -/
inductive Effect where
  | writeFile (path content : String) : Effect
  | runTests (moduleId : String) : Effect
  | measureCoverage (path : String) : Effect
  | gitAdd (path : String) : Effect
  | gitCommit (message : String) : Effect
deriving DecidableEq

/-- The outbound message assigned to `user_message` by one loop iteration.
For a `status` message the three flags record which escalation texts were
appended: the one-attempt-left prompt (`attempt == LIMIT - 3`), the
comment-out-failing-assertions note (same attempt, failed run), and the
last-attempt prompt (`attempt == LIMIT - 2`). -/
inductive OutMsg where
  | ambiguousErr : OutMsg
  | eligibilityErr : OutMsg
  | status (success : Bool) (stderrStr covStr : String)
      (warnOneMore warnCommentOut warnLastAttempt : Bool) : OutMsg
  | unrecognized : OutMsg
  | committedThanks : OutMsg
deriving DecidableEq

/-- The exact message text of the source for each `OutMsg`. -/
def renderMsg : OutMsg → String
  | .ambiguousErr =>
    "ERROR: You cannot send WRITE_TEST_FILE and COMMIT commands in a single message. always first send the WRITE_TEST_FILE commands alone and once the file is ready send the COMMIT command alone."
  | .eligibilityErr =>
    "ERROR: test file names must start with the test_gemini_ prefix"
  | .status succ st cov w1 wf wl =>
    "TEST_RUN_STATUS: " ++ (if succ then "OK" else "FAILED") ++ "\n" ++
    (if succ then "" else "FAILURE_MESSAGE: " ++ st ++ "\n") ++
    "TEST_COVERAGE:\n" ++ cov ++ "\n" ++
    (if w1 then "PROMPT: you have one more test creation attempt left. After the next attempt you need to COMMIT the test.\n" else "") ++
    (if wf then "If the test assertions are still failing, please comment out the failing assertions and add a comment in the code for the humans to review them.\n" else "") ++
    (if wl then "PROMPT: this was your last attempt to create this testfile, if the test works please COMMIT it now.\n" else "")
  | .unrecognized => "Unrecognized command, try again"
  | .committedThanks => "Thank you, the test is committed"

/-- Result of one loop iteration: continue with the next outbound message,
return after a successful commit, or crash on a failed `assert` in
`git_commit_test_file`. Each constructor carries the effects performed. -/
inductive StepOut where
  | cont (msg : OutMsg) (effects : List Effect) : StepOut
  | committed (effects : List Effect) : StepOut
  | fatal (effects : List Effect) : StepOut
deriving DecidableEq

/-- One iteration of the controller loop body, given the agent reply, the
`add_test_file` observation (test-run exit code, captured stderr, coverage
string) and the two git exit codes. -/
def stepReply (attempt : Nat) (fileToTest reply : String)
    (addRc : Int) (addStderr addCov : String)
    (gitAddRc gitCommitRc : Int) : StepOut :=
  match parse_add_file_command reply, parse_commit_command reply with
  | some _, some _ => .cont .ambiguousErr []
  | some pc, none =>
    if containsSub testGeminiMarker pc.1.data then
      .cont
        (.status (addRc == 0) addStderr addCov
          (attempt == SINGLE_FILE_GENERATION_ATTEMPTS_LIMIT - 3)
          ((attempt == SINGLE_FILE_GENERATION_ATTEMPTS_LIMIT - 3) && !(addRc == 0))
          (attempt == SINGLE_FILE_GENERATION_ATTEMPTS_LIMIT - 2))
        [.writeFile pc.1 pc.2, .runTests (module_to_test pc.1), .measureCoverage fileToTest]
    else .cont .eligibilityErr []
  | none, some pm =>
    if gitAddRc == 0 then
      if gitCommitRc == 0 then .committed [.gitAdd pm.1, .gitCommit pm.2]
      else .fatal [.gitAdd pm.1, .gitCommit pm.2]
    else .fatal [.gitAdd pm.1]
  | none, none => .cont .unrecognized []

/-- The agent and the external world, as oracles indexed by the attempt
number: the reply text, the `add_test_file` observation, and the two git
exit codes of the commit branch. -/
structure Env where
  file : String
  reply : Nat → String
  addRc : Nat → Int
  addStderr : Nat → String
  addCov : Nat → String
  gitAddRc : Nat → Int
  gitCommitRc : Nat → Int

/-- The iteration of the loop body at a given attempt index. -/
def stepAt (env : Env) (i : Nat) : StepOut :=
  stepReply i env.file (env.reply i) (env.addRc i) (env.addStderr i) (env.addCov i)
    (env.gitAddRc i) (env.gitCommitRc i)

/-- How a per-file session ends: the commit-branch `return`, falling off the
attempt loop, or an `assert` failure in `git_commit_test_file`. -/
inductive SessionResult where
  | committed : SessionResult
  | exhausted : SessionResult
  | fatalError : SessionResult
deriving DecidableEq

/-- The attempt loop, structurally recursive on the number of remaining
iterations (`fuel`); `attempt` is the current loop counter. -/
def runFromAux (env : Env) : Nat → Nat → SessionResult
  | 0, _ => .exhausted
  | fuel + 1, attempt =>
    match stepAt env attempt with
    | .cont _ _ => runFromAux env fuel (attempt + 1)
    | .committed _ => .committed
    | .fatal _ => .fatalError

/-- `chat_request_test_generation`: the whole per-file session loop. -/
def chat_request_test_generation (env : Env) : SessionResult :=
  runFromAux env SINGLE_FILE_GENERATION_ATTEMPTS_LIMIT 0

/-- Number of loop iterations executed (each send/parse/dispatch counts). -/
def iterationsAux (env : Env) : Nat → Nat → Nat
  | 0, _ => 0
  | fuel + 1, attempt =>
    match stepAt env attempt with
    | .cont _ _ => 1 + iterationsAux env fuel (attempt + 1)
    | .committed _ => 1
    | .fatal _ => 1

/-- Number of iterations performed by the session. -/
def iterationsOf (env : Env) : Nat := iterationsAux env SINGLE_FILE_GENERATION_ATTEMPTS_LIMIT 0

/-- Whether a step lets the loop continue. -/
def isContinueB : StepOut → Bool
  | .cont _ _ => true
  | _ => false

/-- Whether a step is the successful commit return. -/
def isCommitSuccessB : StepOut → Bool
  | .committed _ => true
  | _ => false

/-- The loop body at attempt `i` is executed (all earlier iterations
continued); the bound `i < LIMIT` is required separately. -/
def reaches (env : Env) : Nat → Bool
  | 0 => true
  | i + 1 => reaches env i && isContinueB (stepAt env i)

/-- The message assigned by a step, if the iteration completes (on the
fatal path the `assert` fires before any assignment). -/
def msgOfStep : StepOut → Option OutMsg
  | .cont m _ => some m
  | .committed _ => some .committedThanks
  | .fatal _ => none

/-! ## Coverage report codec (modelled from the spec)

The repository itself never renders or re-parses per-line coverage marks: it
passes the coverage tool's annotated text through verbatim. The spec's
Coverage Report Codec is therefore modelled from the spec. -/

/-- Modelled from the spec: the per-line coverage classification
(spec section 3, "LineCoverageMark"). -/
inductive LineCoverageMark where
  | covered : LineCoverageMark
  | notCovered : LineCoverageMark
  | excludedFromCoverage : LineCoverageMark
  | notExecutable : LineCoverageMark
deriving DecidableEq

/-- Modelled from the spec: the one-character-plus-space line marker emitted
by Render, empty for non-executable lines (spec section 4.1). -/
def markChars : LineCoverageMark → List Char
  | .covered => "> ".data
  | .notCovered => "! ".data
  | .excludedFromCoverage => "- ".data
  | .notExecutable => []

/-- Modelled from the spec: render one `(mark, lineText)` pair (section 4.1,
"emit one line formatted as prefixChar + a space + lineText"). -/
def renderLine (p : LineCoverageMark × List Char) : List Char :=
  markChars p.1 ++ p.2

/-- Join rendered lines with newlines. -/
def joinNL : List (List Char) → List Char
  | [] => []
  | [l] => l
  | l :: ls => l ++ '\n' :: joinNL ls

/-- Modelled from the spec: render a non-sentinel `CoverageReport` (section
4.1, Render). -/
def renderReport (rpt : List (LineCoverageMark × List Char)) : List Char :=
  joinNL (rpt.map renderLine)

/-- Split annotated text into lines at newline characters. -/
def splitNL : List Char → List (List Char)
  | [] => [[]]
  | c :: cs =>
    if c == '\n' then [] :: splitNL cs
    else
      match splitNL cs with
      | [] => [[c]]
      | l :: ls => (c :: l) :: ls

/-- Modelled from the spec: parse one annotated line's leading marker into a
`LineCoverageMark` (section 4.1, Extract). -/
def classifyLine (l : List Char) : LineCoverageMark :=
  if "> ".data.isPrefixOf l then .covered
  else if "! ".data.isPrefixOf l then .notCovered
  else if "- ".data.isPrefixOf l then .excludedFromCoverage
  else .notExecutable

/-- Modelled from the spec: extract the ordered sequence of marks from
annotated text (treating it as coverage-tool output). -/
def extractMarks (text : List Char) : List LineCoverageMark :=
  (splitNL text).map classifyLine

/-! ## Remaining observer definitions and concrete environments -/

/-- The pattern deleted by the second `replace` in the module derivation. -/
def dotPy : List Char := ".py".data

/-- Whether an outbound message is a TEST_RUN_STATUS message. -/
def isStatusMsg : OutMsg → Bool
  | .status _ _ _ _ _ _ => true
  | _ => false

/-- Whether the one-attempt-left escalation prompt was appended. -/
def hasWarnOneMore : OutMsg → Bool
  | .status _ _ _ w1 _ _ => w1
  | _ => false

/-- Whether the last-attempt escalation prompt was appended. -/
def hasWarnLastAttempt : OutMsg → Bool
  | .status _ _ _ _ _ wl => wl
  | _ => false

/-- A session in which the agent always answers with unparseable prose. -/
def envHello : Env where
  file := "f.py"
  reply := fun _ => "hello"
  addRc := fun _ => 0
  addStderr := fun _ => ""
  addCov := fun _ => ""
  gitAddRc := fun _ => 0
  gitCommitRc := fun _ => 0

/-- A session in which the agent immediately sends a well-formed COMMIT and
both git calls succeed. -/
def envCommit : Env where
  file := "f.py"
  reply := fun _ => "COMMIT: tests/test_gemini_a.py\nGemini: add tests\nEND_COMMIT_MESSAGE"
  addRc := fun _ => 0
  addStderr := fun _ => ""
  addCov := fun _ => ""
  gitAddRc := fun _ => 0
  gitCommitRc := fun _ => 0

/-! ## Theorems -/

theorem replaceSlashes_append (a b : List Char) :
    replaceSlashes (a ++ b) = replaceSlashes a ++ replaceSlashes b := by
  induction a with
  | nil => rfl
  | cons c t ih => simp [replaceSlashes, ih]

theorem dotPy_not_prefixOf_append (c : Char) (xs : List Char)
    (h : dotPy.isPrefixOf (c :: xs) = false) :
    dotPy.isPrefixOf ((c :: xs) ++ dotPy) = false := by
  match xs with
  | [] => simp [dotPy, List.isPrefixOf]
  | [x] => simp [dotPy, List.isPrefixOf]
  | x :: y :: t =>
    simp only [dotPy, List.isPrefixOf, List.cons_append] at h ⊢
    simpa using h

theorem removeDotPy_cons_not_prefix (c : Char) (xs : List Char)
    (h : dotPy.isPrefixOf (c :: xs) = false) :
    removeDotPy (c :: xs) = c :: removeDotPy xs := by
  rw [removeDotPy.eq_def]
  split
  · rename_i rest heq
    injection heq with h1 h2
    subst h1; subst h2
    simp [dotPy, List.isPrefixOf] at h
  · rename_i c2 rest2 _ heq
    injection heq with h1 h2
    subst h1; subst h2
    rfl
  · rename_i heq
    cases heq

theorem removeDotPy_append_dotPy (a : List Char)
    (h : containsSub dotPy a = false) :
    removeDotPy (a ++ dotPy) = a := by
  induction a with
  | nil => rfl
  | cons c t ih =>
    simp only [containsSub, Bool.or_eq_false_iff] at h
    calc removeDotPy ((c :: t) ++ dotPy)
        = removeDotPy (c :: (t ++ dotPy)) := rfl
      _ = c :: removeDotPy (t ++ dotPy) := by
          exact removeDotPy_cons_not_prefix c (t ++ dotPy)
            (by simpa using dotPy_not_prefixOf_append c t h.1)
      _ = c :: t := by rw [ih h.2]

/-- C6: `get_coverage` returns the sentinel iff the annotate step exits
nonzero; on zero exit status it returns the annotated file contents (even if
those are empty), so the sentinel and a populated report are mutually
exclusive; `coverageResultStr` links the branch-level model to the raw
string returned by the Python function. -/
theorem C6_coverage_sentinel_iff (st : Int) (c : String) :
    (get_coverage st c = .whole_file_not_covered ↔ st ≠ 0)
    ∧ (st = 0 → get_coverage st c = .annotated c)
    ∧ coverageResultStr (get_coverage st c) = get_coverage_str st c := by
  unfold get_coverage get_coverage_str coverageResultStr
  by_cases h : st = 0 <;> simp [h]

theorem C6_coverage_sentinel_iff_witness :
    get_coverage 0 "source line" = .annotated "source line"
    ∧ get_coverage 1 "" = .whole_file_not_covered :=
  ⟨(C6_coverage_sentinel_iff 0 "source line").2.1 rfl,
   (C6_coverage_sentinel_iff 1 "").1.mpr (by decide)⟩

/-- C10: the module identifier is the test file path with every `/` replaced
by `.` and every occurrence of `.py` deleted; when `.py` occurs only as the
final extension (no occurrence remains inside the slash-replaced stem) the
derivation is exactly the dotted stem, and the concrete example shows an
internal `.py` occurrence is deleted as well, not only the trailing
extension. -/
theorem C10_module_identifier :
    (∀ stem : String, containsSub dotPy (replaceSlashes stem.data) = false →
      module_to_test (stem ++ ".py") = ⟨replaceSlashes stem.data⟩)
    ∧ module_to_test "tests/util.py.helpers/test_gemini_x.py" = "tests.util.helpers.test_gemini_x" := by
  constructor
  · intro stem h
    unfold module_to_test
    apply congrArg String.mk
    rw [String.data_append, replaceSlashes_append,
      show replaceSlashes ".py".data = dotPy from rfl]
    exact removeDotPy_append_dotPy _ h
  · rfl

theorem C10_module_identifier_witness :
    module_to_test ("tests/test_gemini_foo" ++ ".py") = ⟨replaceSlashes "tests/test_gemini_foo".data⟩
    ∧ (⟨replaceSlashes "tests/test_gemini_foo".data⟩ : String) = "tests.test_gemini_foo" :=
  ⟨C10_module_identifier.1 "tests/test_gemini_foo" (by decide), by decide⟩

theorem isPrefixOf_exists_append {p l : List Char} (h : p.isPrefixOf l = true) :
    ∃ t, l = p ++ t := by
  obtain ⟨t, ht⟩ := List.isPrefixOf_iff_prefix.mp h
  exact ⟨t, ht.symm⟩

theorem isPrefixOf_of_append (p t : List Char) : p.isPrefixOf (p ++ t) = true :=
  List.isPrefixOf_iff_prefix.mpr ⟨t, rfl⟩

/-- Specification of the lazy body capture: `findBody` returns a
decomposition at the sentinel, with a nonempty body that is shortest among
all such decompositions. -/
theorem findBody_spec (sen : List Char) :
    ∀ l c rest, findBody sen l = some (c, rest) →
      l = c ++ sen ++ rest ∧ c ≠ [] ∧
      ∀ c2 r2, l = c2 ++ sen ++ r2 → c2 ≠ [] → c.length ≤ c2.length := by
  intro l
  induction l with
  | nil => intro c rest h; cases h
  | cons x xs ih =>
    intro c rest h
    rw [findBody] at h
    by_cases hp : sen.isPrefixOf xs = true
    · rw [if_pos hp] at h
      injection h with h2
      obtain ⟨rfl, rfl⟩ := Prod.mk.injEq .. ▸ h2
      obtain ⟨t, rfl⟩ := isPrefixOf_exists_append hp
      refine ⟨by simp [List.drop_left], by simp, ?_⟩
      intro c2 r2 _ hc2
      have : 0 < c2.length := List.length_pos.mpr hc2
      simpa using this
    · rw [if_neg hp] at h
      cases hfb : findBody sen xs with
      | none => rw [hfb] at h; cases h
      | some cr =>
        rw [hfb] at h
        injection h with h2
        obtain ⟨rfl, rfl⟩ := Prod.mk.injEq .. ▸ h2
        obtain ⟨heq, -, hmin⟩ := ih cr.1 cr.2 (by rw [hfb])
        refine ⟨by simp [heq], by simp, ?_⟩
        intro c2 r2 hdec hc2
        cases c2 with
        | nil => exact absurd rfl hc2
        | cons y c2t =>
          injection hdec with hy hrest
          cases c2t with
          | nil =>
            exfalso
            apply hp
            rw [hrest]
            exact isPrefixOf_of_append sen r2
          | cons z c2tt =>
            have := hmin (z :: c2tt) r2 (by simpa using hrest) (by simp)
            simpa [Nat.succ_le_succ_iff] using this

/-- C3: on the given reply text the WRITE_TEST_FILE parser captures path
`tests/test_gemini_foo.py` and content `class C: pass`, and in general the
captured body used by `parse_add_file_command` is the shortest nonempty text
ending at the first subsequent `END_TEST_FILE` sentinel, so commentary after
the sentinel is never part of the file content. -/
theorem C3_write_parse_shortest :
    parse_add_file_command "WRITE_TEST_FILE: tests/test_gemini_foo.py\nclass C: pass\nEND_TEST_FILE\nLooks good." =
      some ("tests/test_gemini_foo.py", "class C: pass")
    ∧ ∀ l c rest, findBody nlEndTestFile l = some (c, rest) →
        l = c ++ nlEndTestFile ++ rest ∧ c ≠ [] ∧
        ∀ c2 r2, l = c2 ++ nlEndTestFile ++ r2 → c2 ≠ [] → c.length ≤ c2.length :=
  ⟨by decide, findBody_spec nlEndTestFile⟩

theorem C3_write_parse_shortest_witness :
    "in\nEND_TEST_FILE\nGreat.".data = "in".data ++ nlEndTestFile ++ "\nGreat.".data
    ∧ "in".data ≠ []
    ∧ ∀ c2 r2, "in\nEND_TEST_FILE\nGreat.".data = c2 ++ nlEndTestFile ++ r2 →
        c2 ≠ [] → ("in".data).length ≤ c2.length :=
  C3_write_parse_shortest.2 "in\nEND_TEST_FILE\nGreat.".data "in".data "\nGreat.".data (by decide)

theorem gemSuffixScan_contains (l : List Char) (h : gemSuffixScan l = true) :
    containsSub geminiMarker l = true := by
  induction l with
  | nil => cases h
  | cons c tl ih =>
    rw [gemSuffixScan] at h
    rw [containsSub]
    rcases Bool.or_eq_true_iff.mp h with h1 | h2
    · exact Bool.or_eq_true_iff.mpr (Or.inl (Bool.and_eq_true_iff.mp h1).1)
    · exact Bool.or_eq_true_iff.mpr (Or.inr (ih h2))

theorem hasMarkerSplit_contains (l : List Char) (h : hasMarkerSplit l = true) :
    containsSub geminiMarker l = true := by
  cases l with
  | nil => cases h
  | cons c tl =>
    rw [hasMarkerSplit] at h
    rw [containsSub]
    exact Bool.or_eq_true_iff.mpr (Or.inr (gemSuffixScan_contains tl h))

theorem commitAttemptAt_contains (r : List Char) (k : Nat) (p m : List Char)
    (h : commitAttemptAt r k = some (p, m)) :
    containsSub geminiMarker p = true := by
  unfold commitAttemptAt at h
  split at h
  · rename_i hms
    split at h
    · split at h
      · injection h with h2
        injection h2 with ha hb
        subst ha
        exact hasMarkerSplit_contains _ hms
      · cases h
    · cases h
  · cases h

theorem scanKBack_contains (r : List Char) :
    ∀ k p m, scanKBack r k = some (p, m) → containsSub geminiMarker p = true := by
  intro k
  induction k with
  | zero => intro p m h; cases h
  | succ k ih =>
    intro p m h
    rw [scanKBack] at h
    cases hca : commitAttemptAt r (k + 1) with
    | some res =>
      rw [hca] at h
      injection h with h2
      subst h2
      exact commitAttemptAt_contains r (k + 1) p m hca
    | none =>
      rw [hca] at h
      exact ih p m h

theorem matchCommitAt_contains (l p m : List Char)
    (h : matchCommitAt l = some (p, m)) :
    containsSub geminiMarker p = true := by
  unfold matchCommitAt at h
  cases hd : dropLit "COMMIT:".data l with
  | none => rw [hd] at h; cases h
  | some r => rw [hd] at h; exact scanKBack_contains r _ p m h

theorem scanCommit_contains :
    ∀ l p m, scanCommit l = some (p, m) → containsSub geminiMarker p = true := by
  intro l
  induction l with
  | nil => intro p m h; cases h
  | cons c rest ih =>
    intro p m h
    rw [scanCommit] at h
    cases hs : scanCommit rest with
    | some res =>
      rw [hs] at h
      injection h with h2
      subst h2
      exact ih p m hs
    | none =>
      rw [hs] at h
      exact matchCommitAt_contains (c :: rest) p m h

/-- C2 (amended): the commit parse pattern enforces, at the pattern level,
that the captured path contains the marker `_gemini_` (not the full
`test_gemini_` eligibility marker): every path accepted by
`parse_commit_command` contains `_gemini_`, and the controller's Commit
branch performs no further path check. -/
theorem C2_commit_marker_amended (s p m : String)
    (h : parse_commit_command s = some (p, m)) :
    containsSub geminiMarker p.data = true := by
  unfold parse_commit_command at h
  cases hs : scanCommit s.data with
  | none => rw [hs] at h; cases h
  | some pm =>
    rw [hs] at h
    injection h with h2
    obtain ⟨rfl, rfl⟩ := Prod.mk.injEq .. ▸ h2
    exact scanCommit_contains s.data pm.1 pm.2 (by rw [hs])

/-- C2 counterexample: a COMMIT block whose path lacks the `test_gemini_`
marker is nevertheless accepted as a Commit command (its path contains
`_gemini_` but not `test_gemini_`), refuting the claim as stated. -/
theorem C2_commit_marker_counterexample :
    parse_commit_command "COMMIT: tests/x_gemini_a.py\nAdd a test\nEND_COMMIT_MESSAGE" =
      some ("tests/x_gemini_a.py", "Add a test")
    ∧ containsSub testGeminiMarker ("tests/x_gemini_a.py" : String).data = false := by
  exact ⟨by decide, by decide⟩

theorem C2_commit_marker_amended_witness :
    containsSub geminiMarker ("tests/test_gemini_a.py" : String).data = true :=
  C2_commit_marker_amended "COMMIT: tests/test_gemini_a.py\nGemini: add tests\nEND_COMMIT_MESSAGE"
    "tests/test_gemini_a.py" "Gemini: add tests" (by decide)

/-- C4: when a reply parses as both a WriteTestFile and a Commit command the
loop iteration performs no effect at all (no write, no test run, no git
call), assigns the one-command-at-a-time corrective text as the next
outbound message, and continues rather than terminating. -/
theorem C4_ambiguous_reply_no_action (i : Nat) (file reply : String)
    (rc : Int) (st cov : String) (ga gc : Int) (a b : String × String)
    (ha : parse_add_file_command reply = some a)
    (hb : parse_commit_command reply = some b) :
    stepReply i file reply rc st cov ga gc = .cont .ambiguousErr []
    ∧ renderMsg .ambiguousErr =
      "ERROR: You cannot send WRITE_TEST_FILE and COMMIT commands in a single message. always first send the WRITE_TEST_FILE commands alone and once the file is ready send the COMMIT command alone." := by
  refine ⟨?_, rfl⟩
  unfold stepReply
  rw [ha, hb]

theorem C4_ambiguous_reply_no_action_witness :
    stepReply 0 "f.py"
      "WRITE_TEST_FILE: tests/test_gemini_a.py\npass\nEND_TEST_FILE\nCOMMIT: tests/test_gemini_a.py\nGemini: add\nEND_COMMIT_MESSAGE"
      0 "" "" 0 0 = .cont .ambiguousErr []
    ∧ renderMsg .ambiguousErr =
      "ERROR: You cannot send WRITE_TEST_FILE and COMMIT commands in a single message. always first send the WRITE_TEST_FILE commands alone and once the file is ready send the COMMIT command alone." :=
  C4_ambiguous_reply_no_action 0 "f.py"
    "WRITE_TEST_FILE: tests/test_gemini_a.py\npass\nEND_TEST_FILE\nCOMMIT: tests/test_gemini_a.py\nGemini: add\nEND_COMMIT_MESSAGE"
    0 "" "" 0 0 ("tests/test_gemini_a.py", "pass")
    ("tests/test_gemini_a.py", "Gemini: add") (by decide) (by decide)

/-- C7: a parsed WriteTestFile command whose path lacks the `test_gemini_`
marker causes no filesystem write, no test-runner invocation and no coverage
re-measurement; the iteration only assigns the eligibility corrective
message and continues the loop. -/
theorem C7_ineligible_path_no_effects (i : Nat) (file reply : String)
    (rc : Int) (st cov : String) (ga gc : Int) (pc : String × String)
    (ha : parse_add_file_command reply = some pc)
    (hb : parse_commit_command reply = none)
    (hm : containsSub testGeminiMarker pc.1.data = false) :
    stepReply i file reply rc st cov ga gc = .cont .eligibilityErr []
    ∧ renderMsg .eligibilityErr =
      "ERROR: test file names must start with the test_gemini_ prefix" := by
  refine ⟨?_, rfl⟩
  unfold stepReply
  rw [ha, hb]
  simp [hm]

theorem C7_ineligible_path_no_effects_witness :
    stepReply 1 "f.py" "WRITE_TEST_FILE: tests/helper.py\npass\nEND_TEST_FILE" 0 "" "" 0 0 =
      .cont .eligibilityErr []
    ∧ renderMsg .eligibilityErr =
      "ERROR: test file names must start with the test_gemini_ prefix" :=
  C7_ineligible_path_no_effects 1 "f.py" "WRITE_TEST_FILE: tests/helper.py\npass\nEND_TEST_FILE"
    0 "" "" 0 0 ("tests/helper.py", "pass") (by decide) (by decide) (by decide)

/-- C8 (amended): the escalation warnings are appended only to TEST_RUN_STATUS
messages, i.e. only when the iteration executed an eligible WriteTestFile;
among the messages a loop iteration assigns, the one-attempt-left warning is
present exactly when the iteration is a status message at attempt index
`LIMIT - 3 = 2` and the final-attempt warning exactly when it is a status
message at attempt index `LIMIT - 2 = 3`; at any other attempt index, and in
every corrective (ambiguous/ineligible/unrecognized) message, no warning
appears. -/
theorem C8_escalation_timing_amended (i : Nat) (file reply : String)
    (rc : Int) (st cov : String) (ga gc : Int) (m : OutMsg) (effs : List Effect)
    (h : stepReply i file reply rc st cov ga gc = .cont m effs) :
    (hasWarnOneMore m = true ↔ (i = 2 ∧ isStatusMsg m = true))
    ∧ (hasWarnLastAttempt m = true ↔ (i = 3 ∧ isStatusMsg m = true)) := by
  unfold stepReply at h
  cases h1 : parse_add_file_command reply with
  | some pc =>
    cases h2 : parse_commit_command reply with
    | some pm =>
      simp only [h1, h2] at h
      injection h with hm he
      subst hm
      simp [hasWarnOneMore, hasWarnLastAttempt, isStatusMsg]
    | none =>
      simp only [h1, h2] at h
      split_ifs at h with hmrk
      · injection h with hm he
        subst hm
        simp [hasWarnOneMore, hasWarnLastAttempt, isStatusMsg,
          SINGLE_FILE_GENERATION_ATTEMPTS_LIMIT]
      · injection h with hm he
        subst hm
        simp [hasWarnOneMore, hasWarnLastAttempt, isStatusMsg]
  | none =>
    cases h2 : parse_commit_command reply with
    | some pm =>
      simp only [h1, h2] at h
      split_ifs at h
    | none =>
      simp only [h1, h2] at h
      injection h with hm he
      subst hm
      simp [hasWarnOneMore, hasWarnLastAttempt, isStatusMsg]

/-- C8 counterexample: a session whose reply at attempt index 2 is
unrecognized prose reaches that iteration, but the message assigned there is
the unrecognized-command corrective text, which carries no escalation
warning — so the one-attempt-left warning does not appear at attempt index 2
in every session, refuting the claim as stated. -/
theorem C8_escalation_timing_counterexample :
    reaches envHello 2 = true
    ∧ msgOfStep (stepAt envHello 2) = some OutMsg.unrecognized
    ∧ hasWarnOneMore OutMsg.unrecognized = false
    ∧ hasWarnLastAttempt OutMsg.unrecognized = false := by
  refine ⟨by decide, by decide, rfl, rfl⟩

theorem C8_escalation_timing_amended_witness :
    (hasWarnOneMore (.status true "" "cov" true false false) = true ↔
      (2 = 2 ∧ isStatusMsg (.status true "" "cov" true false false) = true))
    ∧ (hasWarnLastAttempt (.status true "" "cov" true false false) = true ↔
      (2 = 3 ∧ isStatusMsg (.status true "" "cov" true false false) = true)) :=
  C8_escalation_timing_amended 2 "f.py"
    "WRITE_TEST_FILE: tests/test_gemini_a.py\npass\nEND_TEST_FILE" 0 "" "cov" 0 0
    (.status true "" "cov" true false false)
    [.writeFile "tests/test_gemini_a.py" "pass",
     .runTests (module_to_test "tests/test_gemini_a.py"),
     .measureCoverage "f.py"] (by decide)

theorem step_cont_of_no_commit_dispatch (env : Env) (i : Nat)
    (h : parse_commit_command (env.reply i) = none ∨ parse_add_file_command (env.reply i) ≠ none) :
    isContinueB (stepAt env i) = true := by
  unfold stepAt stepReply
  cases h1 : parse_add_file_command (env.reply i) with
  | some pc =>
    cases h2 : parse_commit_command (env.reply i) with
    | some pm => simp [isContinueB]
    | none =>
      simp only
      split_ifs <;> simp [isContinueB]
  | none =>
    cases h2 : parse_commit_command (env.reply i) with
    | some pm =>
      exfalso
      rcases h with hc | ha
      · rw [h2] at hc; cases hc
      · exact ha h1
    | none => simp [isContinueB]

theorem runFromAux_exhausted_of_cont (env : Env) :
    ∀ fuel a, (∀ i, a ≤ i → i < a + fuel → isContinueB (stepAt env i) = true) →
      runFromAux env fuel a = .exhausted ∧ iterationsAux env fuel a = fuel := by
  intro fuel
  induction fuel with
  | zero => intro a _; exact ⟨rfl, rfl⟩
  | succ fuel ih =>
    intro a h
    have hc := h a (Nat.le_refl a) (by omega)
    cases hs : stepAt env a with
    | cont m e =>
      have hrec := ih (a + 1) (fun i h1 h2 => h i (by omega) (by omega))
      constructor
      · simp only [runFromAux, hs]
        exact hrec.1
      · simp only [iterationsAux, hs]
        omega
    | committed e => rw [hs] at hc; cases hc
    | fatal e => rw [hs] at hc; cases hc

theorem iterationsAux_le (env : Env) :
    ∀ fuel a, iterationsAux env fuel a ≤ fuel := by
  intro fuel
  induction fuel with
  | zero => intro a; exact Nat.le_refl 0
  | succ fuel ih =>
    intro a
    cases hs : stepAt env a with
    | cont m e =>
      simp only [iterationsAux, hs]
      have := ih (a + 1)
      omega
    | committed e => simp only [iterationsAux, hs]; omega
    | fatal e => simp only [iterationsAux, hs]; omega

/-- C1: if no reply is dispatched to the Commit branch (every reply either
fails the commit parse or also matches the WriteTestFile parse), the
controller performs exactly `SINGLE_FILE_GENERATION_ATTEMPTS_LIMIT = 5`
send/parse/dispatch iterations and then terminates exhausted without
committing; moreover no session whatsoever performs more than 5
iterations. -/
theorem C1_attempt_ceiling (env : Env)
    (h : ∀ i, i < SINGLE_FILE_GENERATION_ATTEMPTS_LIMIT →
      parse_commit_command (env.reply i) = none ∨ parse_add_file_command (env.reply i) ≠ none) :
    (iterationsOf env = SINGLE_FILE_GENERATION_ATTEMPTS_LIMIT ∧
      chat_request_test_generation env = .exhausted)
    ∧ ∀ e2 : Env, iterationsOf e2 ≤ SINGLE_FILE_GENERATION_ATTEMPTS_LIMIT := by
  have hrun := runFromAux_exhausted_of_cont env SINGLE_FILE_GENERATION_ATTEMPTS_LIMIT 0
    (fun i h1 h2 => step_cont_of_no_commit_dispatch env i (h i (by omega)))
  exact ⟨⟨hrun.2, hrun.1⟩, fun e2 => iterationsAux_le e2 SINGLE_FILE_GENERATION_ATTEMPTS_LIMIT 0⟩

theorem C1_attempt_ceiling_witness :
    (iterationsOf envHello = SINGLE_FILE_GENERATION_ATTEMPTS_LIMIT ∧
      chat_request_test_generation envHello = .exhausted)
    ∧ ∀ e2 : Env, iterationsOf e2 ≤ SINGLE_FILE_GENERATION_ATTEMPTS_LIMIT :=
  C1_attempt_ceiling envHello (fun _ _ => Or.inl rfl)

theorem runFromAux_committed_iff (env : Env) :
    ∀ fuel a, runFromAux env fuel a = .committed ↔
      ∃ k, k < fuel ∧ (∀ j, j < k → isContinueB (stepAt env (a + j)) = true) ∧
        isCommitSuccessB (stepAt env (a + k)) = true := by
  intro fuel
  induction fuel with
  | zero =>
    intro a
    constructor
    · intro h; cases h
    · rintro ⟨k, hk, -, -⟩; omega
  | succ fuel ih =>
    intro a
    cases hs : stepAt env a with
    | cont m e =>
      rw [show runFromAux env (fuel + 1) a = runFromAux env fuel (a + 1) by
        simp only [runFromAux, hs]]
      rw [ih (a + 1)]
      constructor
      · rintro ⟨k, hk, hcont, hcs⟩
        refine ⟨k + 1, by omega, ?_, ?_⟩
        · intro j hj
          cases j with
          | zero => simpa [isContinueB] using congrArg isContinueB hs
          | succ j2 =>
            have := hcont j2 (by omega)
            rwa [show a + (j2 + 1) = a + 1 + j2 by omega]
        · rwa [show a + (k + 1) = a + 1 + k by omega]
      · rintro ⟨k, hk, hcont, hcs⟩
        cases k with
        | zero =>
          exfalso
          rw [Nat.add_zero, hs] at hcs
          cases hcs
        | succ k2 =>
          refine ⟨k2, by omega, ?_, ?_⟩
          · intro j hj
            have := hcont (j + 1) (by omega)
            rwa [show a + (j + 1) = a + 1 + j by omega] at this
          · have := hcs
            rwa [show a + (k2 + 1) = a + 1 + k2 by omega] at this
    | committed e =>
      constructor
      · intro _
        exact ⟨0, by omega, fun j hj => absurd hj (by omega), by
          rw [Nat.add_zero, hs]; rfl⟩
      · intro _
        simp only [runFromAux, hs]
    | fatal e =>
      constructor
      · intro h
        simp only [runFromAux, hs] at h
        cases h
      · rintro ⟨k, hk, hcont, hcs⟩
        exfalso
        cases k with
        | zero => rw [Nat.add_zero, hs] at hcs; cases hcs
        | succ k2 =>
          have := hcont 0 (by omega)
          rw [Nat.add_zero, hs] at this
          cases this

theorem stepReply_commitSuccess_iff (i : Nat) (file reply : String)
    (rc : Int) (st cov : String) (ga gc : Int) :
    isCommitSuccessB (stepReply i file reply rc st cov ga gc) = true ↔
    (parse_add_file_command reply = none ∧ (parse_commit_command reply).isSome = true ∧
      ga = 0 ∧ gc = 0) := by
  unfold stepReply
  cases h1 : parse_add_file_command reply with
  | some pc =>
    cases h2 : parse_commit_command reply with
    | some pm => simp [isCommitSuccessB]
    | none =>
      simp only
      split_ifs <;> simp [isCommitSuccessB]
  | none =>
    cases h2 : parse_commit_command reply with
    | some pm =>
      split_ifs with hga hgc <;> simp_all [isCommitSuccessB, beq_iff_eq]
    | none => simp [isCommitSuccessB]

/-- C5: the session returns Committed exactly when some iteration within the
attempt ceiling is reached with all earlier iterations continuing, its reply
parses as a Commit command and not as a WriteTestFile command, and both the
stage and the commit git calls succeed; no other command outcome ends the
session with a return. -/
theorem C5_commit_is_only_successful_exit (env : Env) :
    chat_request_test_generation env = .committed ↔
    ∃ i, i < SINGLE_FILE_GENERATION_ATTEMPTS_LIMIT ∧
      (∀ j, j < i → isContinueB (stepAt env j) = true) ∧
      parse_add_file_command (env.reply i) = none ∧
      (parse_commit_command (env.reply i)).isSome = true ∧
      env.gitAddRc i = 0 ∧ env.gitCommitRc i = 0 := by
  unfold chat_request_test_generation
  rw [runFromAux_committed_iff env SINGLE_FILE_GENERATION_ATTEMPTS_LIMIT 0]
  constructor
  · rintro ⟨k, hk, hcont, hcs⟩
    refine ⟨k, hk, fun j hj => by simpa using hcont j hj, ?_⟩
    have := (stepReply_commitSuccess_iff k env.file (env.reply k) (env.addRc k)
      (env.addStderr k) (env.addCov k) (env.gitAddRc k) (env.gitCommitRc k)).mp
      (by simpa [stepAt] using hcs)
    exact this
  · rintro ⟨i, hi, hcont, hadd, hcommit, hga, hgc⟩
    refine ⟨i, hi, fun j hj => by simpa using hcont j hj, ?_⟩
    simp only [Nat.zero_add]
    exact (stepReply_commitSuccess_iff i env.file (env.reply i) (env.addRc i)
      (env.addStderr i) (env.addCov i) (env.gitAddRc i) (env.gitCommitRc i)).mpr
      ⟨hadd, hcommit, hga, hgc⟩

theorem C5_commit_is_only_successful_exit_witness :
    ∃ i, i < SINGLE_FILE_GENERATION_ATTEMPTS_LIMIT ∧
      (∀ j, j < i → isContinueB (stepAt envCommit j) = true) ∧
      parse_add_file_command (envCommit.reply i) = none ∧
      (parse_commit_command (envCommit.reply i)).isSome = true ∧
      envCommit.gitAddRc i = 0 ∧ envCommit.gitCommitRc i = 0 :=
  (C5_commit_is_only_successful_exit envCommit).mp (by decide)

theorem splitNL_no_newline (a : List Char) (h : '\n' ∉ a) : splitNL a = [a] := by
  induction a with
  | nil => rfl
  | cons c t ih =>
    have hc : c ≠ '\n' := fun hx => h (hx ▸ List.mem_cons_self c t)
    have ht : '\n' ∉ t := fun hx => h (List.mem_cons_of_mem c hx)
    rw [splitNL, if_neg (by simpa using hc), ih ht]

theorem splitNL_append_newline (a rest : List Char) (h : '\n' ∉ a) :
    splitNL (a ++ '\n' :: rest) = a :: splitNL rest := by
  induction a with
  | nil => simp [splitNL]
  | cons c t ih =>
    have hc : c ≠ '\n' := fun hx => h (hx ▸ List.mem_cons_self c t)
    have ht : '\n' ∉ t := fun hx => h (List.mem_cons_of_mem c hx)
    rw [List.cons_append, splitNL, if_neg (by simpa using hc), ih ht]

theorem renderLine_no_newline (m : LineCoverageMark) (t : List Char) (h : '\n' ∉ t) :
    '\n' ∉ renderLine (m, t) := by
  cases m <;> simp [renderLine, markChars] <;> exact h

theorem classifyLine_renderLine (m : LineCoverageMark) (t : List Char)
    (h : m = .notExecutable → classifyLine t = .notExecutable) :
    classifyLine (renderLine (m, t)) = m := by
  cases m with
  | covered => simp [renderLine, markChars, classifyLine, List.isPrefixOf]
  | notCovered => simp [renderLine, markChars, classifyLine, List.isPrefixOf]
  | excludedFromCoverage => simp [renderLine, markChars, classifyLine, List.isPrefixOf]
  | notExecutable => simpa [renderLine, markChars] using h rfl

/-- C9 (amended): rendering a non-sentinel, nonempty coverage report and
re-extracting the marks from the rendered text reproduces the original mark
sequence, provided each line text is newline-free and no non-executable line
text itself starts with one of the marker prefixes (i.e. classifies as
non-executable on its own); the round trip fails without that proviso, as the
counterexample shows. -/
theorem C9_roundtrip_amended (rpt : List (LineCoverageMark × List Char))
    (hne : rpt ≠ [])
    (h : ∀ p ∈ rpt, '\n' ∉ p.2 ∧ (p.1 = .notExecutable → classifyLine p.2 = .notExecutable)) :
    extractMarks (renderReport rpt) = rpt.map Prod.fst := by
  induction rpt with
  | nil => exact absurd rfl hne
  | cons p tl ih =>
    obtain ⟨hp1, hp2⟩ := h p (List.mem_cons_self p tl)
    cases tl with
    | nil =>
      simp only [renderReport, List.map, joinNL, extractMarks]
      rw [splitNL_no_newline _ (renderLine_no_newline p.1 p.2 hp1)]
      simp [classifyLine_renderLine p.1 p.2 hp2]
    | cons q tl2 =>
      have ihh := ih (by simp) (fun x hx => h x (List.mem_cons_of_mem p hx))
      simp only [renderReport, List.map, joinNL, extractMarks] at ihh ⊢
      rw [splitNL_append_newline _ _ (renderLine_no_newline p.1 p.2 hp1)]
      simp only [List.map, classifyLine_renderLine p.1 p.2 hp2]
      rw [ihh]

/-- C9 counterexample: a report with a single non-executable line whose text
begins with the covered-marker prefix renders to text that re-extracts as a
covered line, so the round trip does not hold for every non-sentinel
report. -/
theorem C9_roundtrip_counterexample :
    extractMarks (renderReport [(LineCoverageMark.notExecutable, "> x".data)]) =
      [LineCoverageMark.covered]
    ∧ extractMarks (renderReport [(LineCoverageMark.notExecutable, "> x".data)]) ≠
      List.map Prod.fst [(LineCoverageMark.notExecutable, "> x".data)] := by
  exact ⟨by decide, by decide⟩

theorem C9_roundtrip_amended_witness :
    extractMarks (renderReport
      [(LineCoverageMark.covered, "def f():".data),
       (LineCoverageMark.notCovered, "    return 1".data),
       (LineCoverageMark.excludedFromCoverage, "    pass".data),
       (LineCoverageMark.notExecutable, "# comment".data)]) =
    List.map Prod.fst
      [(LineCoverageMark.covered, "def f():".data),
       (LineCoverageMark.notCovered, "    return 1".data),
       (LineCoverageMark.excludedFromCoverage, "    pass".data),
       (LineCoverageMark.notExecutable, "# comment".data)] :=
  C9_roundtrip_amended _ (by decide) (by decide)
